import Mathlib

/-!
Verification of the Metodo-Fast search endpoint (api/search.js).

The definitions below are a shallow embedding of the JavaScript source.
Upstream HTTP interactions are modelled by environments that supply, per
call, either the parsed JSON payload or a non-success status and body.
Nullable JSON fields become Option values; JavaScript truthiness on
strings is modelled explicitly (empty string is falsy); millisecond
timestamps are natural numbers; the thumbnail aspect ratio is an exact
rational.
-/

deriving instance DecidableEq for Except

namespace MetodoFast

/-- Constants from the head of api/search.js. -/
def DEFAULT_MIN_VIEWS : Nat := 100000

def DEFAULT_MAX_SUBS : Nat := 50000

def DEFAULT_MIN_DURATION_SEC : Nat := 8 * 60

def DEFAULT_DAYS : Nat := 30

def MAX_PAGES : Nat := 2

def DEFAULT_ALLOWED_LANGS : List String :=
  ["en", "es", "fr", "de", "pt", "it", "ru", "ja", "ko", "nl", "pl", "el", "ro", "da", "no", "ga"]

def SUBNICHO_DAYS : Nat := 60

def SUBNICHO_MIN_VIEWS : Nat := 500000

def STREAK_WINDOW_DAYS : Nat := 30

def STREAK_MIN_VIEWS : Nat := 15000

def STREAK_COUNT : Nat := 14

def STREAK_MAX_SUBS : Nat := 150000

def MAX_CHANNEL_CANDIDATES : Nat := 25

/-- COUNTRY_TO_LANG lookup table (api/search.js lines 21-38). -/
def COUNTRY_TO_LANG (c : String) : Option String :=
  if c = "US" ∨ c = "GB" ∨ c = "AU" ∨ c = "NZ" ∨ c = "IE" ∨ c = "IN" then some "en"
  else if c = "BR" ∨ c = "PT" then some "pt"
  else if c = "ES" ∨ c = "MX" ∨ c = "AR" ∨ c = "CO" ∨ c = "CL" ∨ c = "PE" ∨ c = "VE" ∨
          c = "UY" ∨ c = "EC" ∨ c = "BO" ∨ c = "CR" ∨ c = "DO" ∨ c = "GT" ∨ c = "HN" ∨
          c = "NI" ∨ c = "PA" ∨ c = "PR" ∨ c = "SV" ∨ c = "PY" then some "es"
  else if c = "FR" ∨ c = "BE" ∨ c = "LU" ∨ c = "CH" then some "fr"
  else if c = "DE" ∨ c = "AT" then some "de"
  else if c = "IT" ∨ c = "SM" ∨ c = "VA" then some "it"
  else if c = "RU" ∨ c = "BY" ∨ c = "KZ" then some "ru"
  else if c = "JP" then some "ja"
  else if c = "KR" then some "ko"
  else if c = "NL" then some "nl"
  else if c = "PL" then some "pl"
  else if c = "GR" then some "el"
  else if c = "RO" ∨ c = "MD" then some "ro"
  else if c = "DK" then some "da"
  else if c = "NO" then some "no"
  else none

/-- Lower-case a string character-wise (JS String.prototype.toLowerCase on
the ASCII range used by the filters). -/
def lowerStr (s : String) : String := String.mk (s.data.map Char.toLower)

/-- Upper-case a string character-wise (JS String.prototype.toUpperCase). -/
def upperStr (s : String) : String := String.mk (s.data.map Char.toUpper)

/-- JS string truthiness: undefined/null and the empty string are falsy. -/
def truthyS : Option String → Option String
  | some s => if s = "" then none else some s
  | none => none

/-- JS `a || b` on two nullable strings (null when both are falsy). -/
def jsOrS (a b : Option String) : Option String :=
  match truthyS a with
  | some s => some s
  | none => truthyS b

/-- normalizeLang (api/search.js line 54): lower-case, strip the region
suffix after the first dash, and return null for an empty result. -/
def normalizeLang (code : Option String) : Option String :=
  let s := (code.getD "")
  let lowered := lowerStr s
  let base := String.mk (lowered.data.takeWhile (fun c => c ≠ '-'))
  if base = "" then none else some base

/-- Value of a nonempty digit run. -/
def digitsToNat (ds : List Char) : Nat :=
  ds.foldl (fun n c => n * 10 + (c.toNat - '0'.toNat)) 0

/-- One optional component of the duration regex, `(?:(\d+)U)?` for a unit
letter U: succeeds when a nonempty digit run is immediately followed by
the unit letter, returning the value and the remaining characters. -/
def matchComp (cs : List Char) (u : Char) : Option (Nat × List Char) :=
  if (cs.takeWhile Char.isDigit).isEmpty then none
  else
    match cs.dropWhile Char.isDigit with
    | c :: rest2 => if c = u then some (digitsToNat (cs.takeWhile Char.isDigit), rest2) else none
    | [] => none

/-- First match position of the literal "PT" of the duration regex:
returns the characters after the first "PT" occurrence. -/
def findPT : List Char → Option (List Char)
  | [] => none
  | c :: rest =>
    if c = 'P' ∧ rest.head? = some 'T' then some rest.tail
    else findPT rest

/-- A recognizable duration component: somewhere in the string a nonempty
digit run is immediately followed by one of the unit letters H, M, S.
Any string the duration regex extracts a component from satisfies this. -/
def hasCompB : List Char → Bool
  | c :: d :: rest => (c.isDigit && (d = 'H' || d = 'M' || d = 'S')) || hasCompB (d :: rest)
  | _ => false

/-- The three optional components after "PT": each failed component
leaves the position unchanged, exactly as the optional regex groups do. -/
def parseHMS (rest : List Char) : Nat :=
  match matchComp rest 'H' with
  | some (h, r1) =>
    (match matchComp r1 'M' with
     | some (m, r2) =>
       (match matchComp r2 'S' with
        | some (s, _) => h * 3600 + m * 60 + s
        | none => h * 3600 + m * 60)
     | none =>
       (match matchComp r1 'S' with
        | some (s, _) => h * 3600 + s
        | none => h * 3600))
  | none =>
    (match matchComp rest 'M' with
     | some (m, r2) =>
       (match matchComp r2 'S' with
        | some (s, _) => m * 60 + s
        | none => m * 60)
     | none =>
       (match matchComp rest 'S' with
        | some (s, _) => s
        | none => 0))

/-- parseISODuration (api/search.js lines 61-69): the regex
`PT(?:(\d+)H)?(?:(\d+)M)?(?:(\d+)S)?` searched in the string; absent or
non-string input and a failed search give 0. -/
def parseISODuration (iso : Option String) : Nat :=
  match iso with
  | none => 0
  | some s =>
    match findPT s.data with
    | none => 0
    | some rest => parseHMS rest

/-- One thumbnail variant: nullable width/height/url. -/
structure Thumb where
  width : Option Nat
  height : Option Nat
  url : Option String
deriving DecidableEq

/-- The thumbnails object with its five optional variants. -/
structure Thumbs where
  maxres : Option Thumb
  standard : Option Thumb
  high : Option Thumb
  medium : Option Thumb
  defaultT : Option Thumb
deriving DecidableEq

/-- pickThumb (api/search.js lines 71-73): best-resolution-first fallback
chain over the thumbnail variants. -/
def pickThumb (t : Thumbs) : Option Thumb :=
  match t.maxres with
  | some x => some x
  | none =>
    match t.standard with
    | some x => some x
    | none =>
      match t.high with
      | some x => some x
      | none =>
        match t.medium with
        | some x => some x
        | none => t.defaultT

/-- A raw item of a videos.list response, with the nullable paths the
handler reads (statistics.viewCount, snippet.publishedAt as a millisecond
timestamp, contentDetails.duration, snippet.title, snippet.thumbnails,
snippet.channelId, snippet.channelTitle, snippet.defaultAudioLanguage,
snippet.defaultLanguage). -/
structure VRec where
  id : String
  statsViewCount : Option Nat
  publishedAt : Option Nat
  duration : Option String
  title : Option String
  thumbnails : Thumbs
  channelId : Option String
  channelTitle : Option String
  defaultAudioLanguage : Option String
  defaultLanguage : Option String
deriving DecidableEq

/-- The record pushed into `videos` by the per-video predicate
(api/search.js lines 207-220). -/
structure Video where
  videoId : String
  title : String
  channelId : String
  channelTitle : String
  publishedAt : Nat
  viewCount : Nat
  durationSec : Nat
  aspect : Rat
  videoLang : Option String
  thumbnail : Option String
  url : String
deriving DecidableEq

/-- Case-insensitive shorts-marker test: `titleLower.includes('#shorts')`
as a sublist check over the lower-cased characters. -/
def containsSeq (needle : List Char) : List Char → Bool
  | [] => needle.isEmpty
  | h :: t => needle.isPrefixOf (h :: t) || containsSeq needle t

/-- Width of the picked thumbnail, 0 when absent
(`Number(thumb?.width || 0)`). -/
def thumbW (v : VRec) : Nat := ((pickThumb v.thumbnails).bind Thumb.width).getD 0

/-- Height of the picked thumbnail, 0 when absent. -/
def thumbH (v : VRec) : Nat := ((pickThumb v.thumbnails).bind Thumb.height).getD 0

/-- The aspect ratio `w > 0 && h > 0 ? w / h : 16 / 9`. -/
def aspectOf (v : VRec) : Rat :=
  if 0 < thumbW v ∧ 0 < thumbH v then mkRat (thumbW v) (thumbH v) else mkRat 16 9

/-- The conjunction guarding the push of api/search.js lines 197-203:
view floor, recency, duration floor, horizontal aspect, no shorts
marker. -/
def stage2Cond (minViews minDurationSec windowStart : Nat) (v : VRec) (pub : Nat) : Bool :=
  decide (minViews ≤ v.statsViewCount.getD 0) && decide (windowStart ≤ pub) &&
  decide (minDurationSec ≤ parseISODuration v.duration) &&
  decide (mkRat 6 5 ≤ aspectOf v) &&
  !(containsSeq ("#shorts".data) (lowerStr (v.title.getD "")).data)

/-- The mode-'videos' per-video predicate and record construction
(api/search.js lines 182-222): view floor, recency, duration floor,
aspect-ratio floor with 16/9 default, shorts exclusion. -/
def stage2Video (minViews minDurationSec windowStart : Nat) (v : VRec) : Option Video :=
  match v.publishedAt with
  | none => none
  | some pub =>
    if stage2Cond minViews minDurationSec windowStart v pub = true then
      some
        { videoId := v.id
          title := v.title.getD ""
          channelId := v.channelId.getD ""
          channelTitle := v.channelTitle.getD ""
          publishedAt := pub
          viewCount := v.statsViewCount.getD 0
          durationSec := parseISODuration v.duration
          aspect := aspectOf v
          videoLang := normalizeLang (jsOrS v.defaultAudioLanguage v.defaultLanguage)
          thumbnail := (pickThumb v.thumbnails).bind Thumb.url
          url := "https://www.youtube.com/watch?v=" ++ v.id }
    else none

/-- A raw item of a channels.list response with the nullable paths the
handler reads (statistics, the two country locations, snippet.title,
contentDetails.relatedPlaylists.uploads, snippet.thumbnails). -/
structure ChRec where
  id : String
  title : Option String
  hiddenSubscriberCount : Bool
  subscriberCount : Option Nat
  brandingCountry : Option String
  snippetCountry : Option String
  uploads : Option String
  thumbnails : Thumbs
deriving DecidableEq

/-- The channelMeta entry built per returned channel (api/search.js
lines 241-248). -/
structure ChMeta where
  subs : Option Nat
  hidden : Bool
  country : Option String
  langHint : Option String
deriving DecidableEq

/-- Build one channelMeta entry: hidden subscriber counts become null,
country is upper-cased from whichever location is present, the language
hint comes from the country table. -/
def mkChMeta (ch : ChRec) : ChMeta :=
  let hidden := ch.hiddenSubscriberCount
  let subs : Option Nat := if hidden then none else some (ch.subscriberCount.getD 0)
  let countryCode := (jsOrS ch.brandingCountry ch.snippetCountry).map upperStr
  let langHint := countryCode.bind COUNTRY_TO_LANG
  ⟨subs, hidden, countryCode, langHint⟩

/-- The channelMeta object: later assignments shadow earlier ones, so
entries are prepended and lookup takes the first hit. -/
def lookupMeta (metas : List (String × ChMeta)) (id : String) : Option ChMeta :=
  metas.lookup id

/-- Resolved language of a joined video: the video-declared tag wins,
otherwise the channel country hint (`v.videoLang || ch.langHint || null`). -/
def langOf (ch : ChMeta) (v : Video) : Option String :=
  match v.videoLang with
  | some l => some l
  | none => ch.langHint

/-- Language-membership step of the composite filter. -/
def langPass (allowed : List String) : Option String → Bool
  | none => false
  | some l => allowed.contains l

/-- The mode-'videos' composite subscriber/language predicate over a video
joined with its channel meta (api/search.js lines 254-264): maxSubs 0 is
the "no limit" sentinel, null subscribers and counts above the ceiling are
rejected, then the resolved language must be allowed. -/
def videoChannelPass (maxSubs : Nat) (allowed : List String) (ch : ChMeta) (v : Video) : Bool :=
  if 0 < maxSubs then
    match ch.subs with
    | none => false
    | some s => if maxSubs < s then false else langPass allowed (langOf ch v)
  else langPass allowed (langOf ch v)

/-- The filter callback of api/search.js lines 254-264, including the
lookup failure case (`if (!ch) return false`). -/
def passesFilter (maxSubs : Nat) (allowed : List String) (metas : List (String × ChMeta))
    (v : Video) : Bool :=
  match lookupMeta metas v.channelId with
  | none => false
  | some ch => videoChannelPass maxSubs allowed ch v

/-- The response item of mode 'videos': the video spread together with the
joined subscriberCount and language (api/search.js lines 265-269). -/
structure OutVideo extends Video where
  subscriberCount : Option Nat
  language : Option String
deriving DecidableEq

/-- Build the response item for a surviving video. -/
def mkOut (metas : List (String × ChMeta)) (v : Video) : OutVideo :=
  { toVideo := v
    subscriberCount := (lookupMeta metas v.channelId).bind ChMeta.subs
    language :=
      match v.videoLang with
      | some l => some l
      | none => (lookupMeta metas v.channelId).bind ChMeta.langHint }

/-- Stable descending sort by viewCount
(`.sort((a, b) => b.viewCount - a.viewCount)`). -/
def sortViewsDesc (l : List OutVideo) : List OutVideo :=
  List.insertionSort (fun a b => b.viewCount ≤ a.viewCount) l

/-- One search.list response page: either a non-success status with its
body, or items carrying optional `id.videoId` values and a continuation
token flag. -/
structure SPage where
  ok : Bool
  status : Nat
  body : String
  items : List (Option String)
  nextPageToken : Bool
deriving DecidableEq

/-- Set-like insertion of one search item's videoId (truthiness checked,
duplicates ignored, insertion order kept). -/
def addVideoId (acc : List String) (it : Option String) : List String :=
  match truthyS it with
  | some v => if acc.contains v then acc else acc ++ [v]
  | none => acc

/-- The paginated inner loop of the id collectors (api/search.js
lines 81-94 and 104-118) for one term/duration combination: up to
`budget` pages, abort on a non-success page, stop when the continuation
token is absent. -/
def collectChain (budget : Nat) (chain : List SPage) (acc : List String) :
    Except (Nat × String) (List String) :=
  match budget, chain with
  | 0, _ => .ok acc
  | _ + 1, [] => .ok acc
  | b + 1, p :: rest =>
    if p.ok = false then .error (p.status, p.body)
    else
      let acc2 := p.items.foldl addVideoId acc
      if p.nextPageToken then collectChain b rest acc2 else .ok acc2

/-- The outer loops of the id collectors: one page chain per term (or per
term-duration combination), the accumulated id set threaded through. -/
def collectChains (budget : Nat) : List (List SPage) → List String →
    Except (Nat × String) (List String)
  | [], acc => .ok acc
  | c :: cs, acc =>
    match collectChain budget c acc with
    | .error e => .error e
    | .ok acc2 => collectChains budget cs acc2

/-- collectVideoIdsWithDurations (api/search.js lines 76-98): the chains
abstract the term-by-duration query combinations. -/
def collectVideoIdsWithDurations (chains : List (List SPage)) (pages : Nat) :
    Except (Nat × String) (List String) :=
  collectChains pages chains []

/-- collectVideoIdsAny (api/search.js lines 101-121): the chains abstract
the per-term queries. -/
def collectVideoIdsAny (chains : List (List SPage)) (pages : Nat) :
    Except (Nat × String) (List String) :=
  collectChains pages chains []

/-- Fuel-driven batching worker; the fuel is the list length, so it never
runs out before the list does. -/
def chunksGo {α : Type} : Nat → List α → List (List α)
  | _, [] => []
  | 0, x :: xs => [x :: xs]
  | fuel + 1, x :: xs => ((x :: xs).take 50) :: chunksGo fuel ((x :: xs).drop 50)

/-- Batches of at most 50 identifiers (`for (let i = 0; i < n; i += 50)`). -/
def chunks {α : Type} (l : List α) : List (List α) :=
  chunksGo l.length l

/-- The videos.list enrichment loop of mode 'videos' (api/search.js
lines 172-224): each batch call either aborts with the upstream status
and body, or contributes the records surviving the per-video predicate. -/
def fetchVideosBatches (call : List String → Except (Nat × String) (List VRec))
    (minViews minDurationSec windowStart : Nat) :
    List (List String) → List Video → Except (Nat × String) (List Video)
  | [], acc => .ok acc
  | c :: cs, acc =>
    match call c with
    | .error e => .error e
    | .ok recs =>
      fetchVideosBatches call minViews minDurationSec windowStart cs
        (acc ++ recs.filterMap (stage2Video minViews minDurationSec windowStart))

/-- The channels.list enrichment loop of mode 'videos' (api/search.js
lines 233-250): builds the channelMeta map, aborting on a non-success
batch. -/
def fetchChannelMeta (call : List String → Except (Nat × String) (List ChRec)) :
    List (List String) → List (String × ChMeta) →
    Except (Nat × String) (List (String × ChMeta))
  | [], acc => .ok acc
  | c :: cs, acc =>
    match call c with
    | .error e => .error e
    | .ok recs => fetchChannelMeta call cs (recs.foldl (fun m ch => (ch.id, mkChMeta ch) :: m) acc)

/-- Insertion-ordered deduplication (`Array.from(new Set(...))`). -/
def dedupFirst (l : List String) : List String :=
  l.foldl (fun acc x => if acc.contains x then acc else acc ++ [x]) []

/-- The resolved filter configuration of one request. -/
structure Cfg where
  minViews : Nat
  maxSubs : Nat
  minDurationSec : Nat
  windowStart : Nat
  pages : Nat
  allowedLangs : List String

/-- The serialized HTTP outcome: status, items, meta.total and the error
fields of the failure bodies. -/
structure HResp (α : Type) where
  status : Nat
  items : List α
  total : Option Nat
  error : Option String
  details : Option String
deriving DecidableEq

/-- Upstream environment of mode 'videos': the search page chains and the
two batched enrichment calls. -/
structure VEnv where
  searchChains : List (List SPage)
  videosCall : List String → Except (Nat × String) (List VRec)
  channelsCall : List String → Except (Nat × String) (List ChRec)

/-- Detail string of a discovery failure: `String(err)` over the thrown
`Error('search.list ' + status + ' ' + body)`. -/
def searchErrDetails (s : Nat) (b : String) : String :=
  "Error: search.list " ++ toString s ++ " " ++ b

/-- Mode 'videos' (api/search.js lines 156-274): discovery, video
enrichment with the per-video predicate, channel enrichment, composite
subscriber/language filter, and the descending view-count sort. -/
def runVideos (cfg : Cfg) (env : VEnv) : HResp OutVideo :=
  match collectVideoIdsWithDurations env.searchChains cfg.pages with
  | .error (s, b) =>
    ⟨500, [], none, some "Falha coletando IDs", some (searchErrDetails s b)⟩
  | .ok videoIds =>
    if videoIds.isEmpty then ⟨200, [], some 0, none, none⟩
    else
      match fetchVideosBatches env.videosCall cfg.minViews cfg.minDurationSec cfg.windowStart
          (chunks videoIds) [] with
      | .error (s, b) => ⟨s, [], none, some "Erro videos.list", some b⟩
      | .ok videos =>
        if videos.isEmpty then ⟨200, [], some 0, none, none⟩
        else
          let channelIds := (dedupFirst (videos.map Video.channelId)).filter (fun s => s ≠ "")
          match fetchChannelMeta env.channelsCall (chunks channelIds) [] with
          | .error (s, b) => ⟨s, [], none, some "Erro channels.list", some b⟩
          | .ok metas =>
            let filtered :=
              sortViewsDesc
                (((videos.filter (passesFilter cfg.maxSubs cfg.allowedLangs metas)).map
                  (mkOut metas)))
            ⟨200, filtered, some filtered.length, none, none⟩

/-- Best-video candidate of one channel in mode 'subnicho'
(api/search.js lines 293-320). -/
structure Cand where
  videoId : String
  viewCount : Nat
  publishedAt : Nat
  title : String
deriving DecidableEq

/-- Map.set on the insertion-ordered candidate map; the key is the raw
(possibly absent) snippet.channelId. -/
def setCand : List (Option String × Cand) → Option String → Cand →
    List (Option String × Cand)
  | [], k, c => [(k, c)]
  | (k2, c2) :: rest, k, c =>
    if k2 = k then (k, c) :: rest else (k2, c2) :: setCand rest k c

/-- Map.get on the candidate map. -/
def lookupCand (m : List (Option String × Cand)) (k : Option String) : Option Cand :=
  m.lookup k

/-- Per-record step of the subnicho candidate collection (api/search.js
lines 301-318): keep, per channel, the hit video with the highest view
count among the recent 500k+ ones. -/
def subStep (windowStart : Nat) (m : List (Option String × Cand)) (v : VRec) :
    List (Option String × Cand) :=
  let vc := v.statsViewCount.getD 0
  match v.publishedAt with
  | none => m
  | some pub =>
    if SUBNICHO_MIN_VIEWS ≤ vc ∧ windowStart ≤ pub then
      match lookupCand m v.channelId with
      | none => setCand m v.channelId ⟨v.id, vc, pub, v.title.getD ""⟩
      | some prev =>
        if prev.viewCount < vc then setCand m v.channelId ⟨v.id, vc, pub, v.title.getD ""⟩
        else m
    else m

/-- The subnicho videos.list loop (api/search.js lines 294-320). -/
def subStage2 (call : List String → Except (Nat × String) (List VRec)) (windowStart : Nat) :
    List (List String) → List (Option String × Cand) →
    Except (Nat × String) (List (Option String × Cand))
  | [], m => .ok m
  | c :: cs, m =>
    match call c with
    | .error e => .error e
    | .ok recs => subStage2 call windowStart cs (recs.foldl (subStep windowStart) m)

/-- A mode-'subnicho' response item (api/search.js lines 351-362). -/
structure SubItem where
  channelId : String
  channelTitle : String
  subscriberCount : Option Nat
  language : String
  thumbnail : Option String
  title : String
  viewCount : Option Nat
  publishedAt : Option Nat
  url : String
deriving DecidableEq

/-- Build one subnicho channel item (api/search.js lines 339-363):
language gate from the country hint, hidden-subscriber handling, join
with the best candidate video. -/
def subChItem (allowed : List String) (cands : List (Option String × Cand)) (ch : ChRec) :
    Option SubItem :=
  let countryCode := (jsOrS ch.brandingCountry ch.snippetCountry).map upperStr
  match countryCode.bind COUNTRY_TO_LANG with
  | none => none
  | some l =>
    if allowed.contains l = false then none
    else
      let best := lookupCand cands (some ch.id)
      let subs : Option Nat :=
        if ch.hiddenSubscriberCount then none else some (ch.subscriberCount.getD 0)
      let thumb := pickThumb ch.thumbnails
      some
        { channelId := ch.id
          channelTitle := ch.title.getD ""
          subscriberCount := subs
          language := l
          thumbnail := thumb.bind Thumb.url
          title := ch.title.getD ""
          viewCount := best.map Cand.viewCount
          publishedAt := best.map Cand.publishedAt
          url := "https://www.youtube.com/channel/" ++ ch.id }

/-- The subnicho channels.list loop (api/search.js lines 330-365). -/
def subChannels (call : List (Option String) → Except (Nat × String) (List ChRec))
    (allowed : List String) (cands : List (Option String × Cand)) :
    List (List (Option String)) → List SubItem →
    Except (Nat × String) (List SubItem)
  | [], acc => .ok acc
  | c :: cs, acc =>
    match call c with
    | .error e => .error e
    | .ok recs => subChannels call allowed cands cs (acc ++ recs.filterMap (subChItem allowed cands))

/-- Upstream environment of mode 'subnicho'. -/
structure SEnv where
  searchChains : List (List SPage)
  videosCall : List String → Except (Nat × String) (List VRec)
  channelsCall : List (Option String) → Except (Nat × String) (List ChRec)

/-- Mode 'subnicho' (api/search.js lines 277-370): candidate discovery,
500k-hit channel collection, channel enrichment with language gate, and
the descending sort on the best candidate's view count with nulls as 0. -/
def runSubnicho (allowed : List String) (windowStart pages : Nat) (env : SEnv) : HResp SubItem :=
  match collectVideoIdsAny env.searchChains pages with
  | .error (s, b) =>
    ⟨500, [], none, some "Falha coletando IDs", some (searchErrDetails s b)⟩
  | .ok videoIds =>
    if videoIds.isEmpty then ⟨200, [], some 0, none, none⟩
    else
      match subStage2 env.videosCall windowStart (chunks videoIds) [] with
      | .error (s, b) => ⟨s, [], none, some "Erro videos.list", some b⟩
      | .ok cands =>
        let channelIds := cands.map Prod.fst
        if channelIds.isEmpty then ⟨200, [], some 0, none, none⟩
        else
          match subChannels env.channelsCall allowed cands (chunks channelIds) [] with
          | .error (s, b) => ⟨s, [], none, some "Erro channels.list", some b⟩
          | .ok items =>
            let sorted :=
              List.insertionSort (fun a b => b.viewCount.getD 0 ≤ a.viewCount.getD 0) items
            ⟨200, sorted, some sorted.length, none, none⟩

/-- One playlistItems response entry with the nullable paths the handler
reads (contentDetails.videoId, contentDetails.videoPublishedAt,
snippet.publishedAt). -/
structure PItem where
  videoId : Option String
  videoPublishedAt : Option Nat
  snippetPublishedAt : Option Nat
deriving DecidableEq

/-- One playlistItems response page. -/
structure PPage where
  ok : Bool
  status : Nat
  body : String
  items : List PItem
  nextPageToken : Bool
deriving DecidableEq

/-- An entry of videoIdsForCheck: id plus publish timestamp. -/
structure SItem where
  vId : String
  publishedAt : Nat
deriving DecidableEq

/-- In-window entries contributed by one playlist page (api/search.js
lines 449-455): id and timestamp must be present (truthy), and the
timestamp must be inside the recency window. -/
def pageWindowItems (windowStart : Nat) (items : List PItem) : List SItem :=
  items.filterMap fun it =>
    match truthyS it.videoId,
        (match it.videoPublishedAt with
         | some p => some p
         | none => it.snippetPublishedAt) with
    | some v, some p => if windowStart ≤ p then some ⟨v, p⟩ else none
    | some _, none => none
    | none, _ => none

/-- The uploads-playlist walk of mode 'rec_channels' (api/search.js
lines 438-460): a do-while over pages that aborts on a non-success page,
breaks once at least STREAK_COUNT in-window uploads are gathered, and
otherwise continues exactly while a continuation token is present. The
second component counts the pages fetched. -/
def walkUploads (windowStart : Nat) : List PPage → List SItem →
    Except (Nat × String) (List SItem × Nat)
  | [], acc => .ok (acc, 0)
  | p :: rest, acc =>
    if p.ok = false then .error (p.status, p.body)
    else
      if STREAK_COUNT ≤ (acc ++ pageWindowItems windowStart p.items).length then
        .ok (acc ++ pageWindowItems windowStart p.items, 1)
      else if p.nextPageToken then
        match walkUploads windowStart rest (acc ++ pageWindowItems windowStart p.items) with
        | .error e => .error e
        | .ok (c, n) => .ok (c, n + 1)
      else .ok (acc ++ pageWindowItems windowStart p.items, 1)

/-- Stable descending sort of gathered uploads by publish timestamp
(api/search.js line 463). -/
def sortPubDesc (l : List SItem) : List SItem :=
  List.insertionSort (fun a b => b.publishedAt ≤ a.publishedAt) l

/-- The STREAK_COUNT most recent in-window uploads (api/search.js
line 464). -/
def streakSel (collected : List SItem) : List SItem :=
  (sortPubDesc collected).take STREAK_COUNT

/-- The allAbove loop over the streak statistics response (api/search.js
lines 473-477): false as soon as a returned record's view count is below
the streak floor. -/
def streakAllAbove : List VRec → Bool
  | [] => true
  | v :: rest =>
    if v.statsViewCount.getD 0 < STREAK_MIN_VIEWS then false else streakAllAbove rest

/-- Subscriber count of a streak-mode channel (api/search.js
lines 426-427): null when hidden, otherwise the count with 0 default. -/
def chSubs (ch : ChRec) : Option Nat :=
  if ch.hiddenSubscriberCount then none else some (ch.subscriberCount.getD 0)

/-- Country-derived language of a streak-mode channel (api/search.js
lines 430-431). -/
def chLang (ch : ChRec) : Option String :=
  match jsOrS ch.brandingCountry ch.snippetCountry with
  | none => none
  | some c => COUNTRY_TO_LANG (upperStr c)

/-- A mode-'rec_channels' qualified-channel record (api/search.js
lines 481-490). -/
structure OutCh where
  channelId : String
  channelTitle : String
  subscriberCount : Option Nat
  language : Option String
  thumbnail : Option String
  title : String
  url : String
deriving DecidableEq

/-- A streak-mode abort: upstream status, the error label of the failing
call site, and the upstream body. -/
abbrev RErr : Type := Nat × String × String

/-- Upstream environment of mode 'rec_channels': discovery chains, the
candidate videos.list batches, the channels.list batches, the uploads
playlist pages per uploads id, and the streak statistics call. -/
structure REnv where
  searchChains : List (List SPage)
  videosCall : List String → Except (Nat × String) (List VRec)
  channelsCall : List String → Except (Nat × String) (List ChRec)
  pages : String → List PPage
  statsCall : List String → Except (Nat × String) (List VRec)

/-- Evaluation of one candidate channel (api/search.js lines 425-490):
subscriber gate, country-language gate, uploads reference, windowed
uploads walk, selection of the 14 most recent, statistics fetch and the
allAbove check. Errors abort the whole request. -/
def processChannel (allowed : List String) (windowStart : Nat) (env : REnv) (ch : ChRec) :
    Except RErr (Option OutCh) :=
  match chSubs ch with
  | none => .ok none
  | some s =>
    if STREAK_MAX_SUBS < s then .ok none
    else
      match chLang ch with
      | none => .ok none
      | some l =>
        if allowed.contains l = false then .ok none
        else
          match truthyS ch.uploads with
          | none => .ok none
          | some uploadsId =>
            match walkUploads windowStart (env.pages uploadsId) [] with
            | .error (st, b) => .error (st, "Erro playlistItems.list", b)
            | .ok (collected, _) =>
              if (streakSel collected).length < STREAK_COUNT then .ok none
              else
                match env.statsCall ((streakSel collected).map SItem.vId) with
                | .error (st, b) => .error (st, "Erro videos.list (streak)", b)
                | .ok recs =>
                  if streakAllAbove recs then
                    .ok (some
                      { channelId := ch.id
                        channelTitle := ch.title.getD ""
                        subscriberCount := some s
                        language := some l
                        thumbnail := (pickThumb ch.thumbnails).bind Thumb.url
                        title := ch.title.getD ""
                        url := "https://www.youtube.com/channel/" ++ ch.id })
                  else .ok none

/-- Channel-set contribution of one candidate videos.list record
(api/search.js lines 396-404): recent 15k+ videos add their (truthy)
channel id, insertion-ordered and deduplicated. -/
def recAddChannel (windowStart : Nat) (acc : List String) (v : VRec) : List String :=
  let vc := v.statsViewCount.getD 0
  match v.publishedAt with
  | none => acc
  | some pub =>
    if STREAK_MIN_VIEWS ≤ vc ∧ windowStart ≤ pub then
      match truthyS v.channelId with
      | some cid => if acc.contains cid then acc else acc ++ [cid]
      | none => acc
    else acc

/-- The candidate videos.list loop of mode 'rec_channels' (api/search.js
lines 390-406). -/
def recStage2 (call : List String → Except (Nat × String) (List VRec)) (windowStart : Nat) :
    List (List String) → List String → Except (Nat × String) (List String)
  | [], acc => .ok acc
  | c :: cs, acc =>
    match call c with
    | .error e => .error e
    | .ok recs => recStage2 call windowStart cs (recs.foldl (recAddChannel windowStart) acc)

/-- Per-batch channel evaluation (the inner for of api/search.js
lines 425-491). -/
def processAll (allowed : List String) (windowStart : Nat) (env : REnv) :
    List ChRec → List OutCh → Except RErr (List OutCh)
  | [], acc => .ok acc
  | ch :: t, acc =>
    match processChannel allowed windowStart env ch with
    | .error e => .error e
    | .ok none => processAll allowed windowStart env t acc
    | .ok (some o) => processAll allowed windowStart env t (acc ++ [o])

/-- The channels.list batch loop of mode 'rec_channels' (api/search.js
lines 416-491). -/
def recChannels (allowed : List String) (windowStart : Nat) (env : REnv) :
    List (List String) → List OutCh → Except RErr (List OutCh)
  | [], acc => .ok acc
  | c :: cs, acc =>
    match env.channelsCall c with
    | .error (s, b) => .error (s, "Erro channels.list", b)
    | .ok recs =>
      match processAll allowed windowStart env recs acc with
      | .error e => .error e
      | .ok acc2 => recChannels allowed windowStart env cs acc2

/-- Mode 'rec_channels' (api/search.js lines 373-491): discovery with a
single-page budget, candidate channel collection capped at
MAX_CHANNEL_CANDIDATES, and the per-channel streak evaluation. The final
ranking/serialization lines are truncated in the source file, so the
success response carries the qualified list as accumulated. -/
def runRec (allowed : List String) (windowStart : Nat) (env : REnv) : HResp OutCh :=
  match collectVideoIdsAny env.searchChains 1 with
  | .error (s, b) =>
    ⟨500, [], none, some "Falha coletando IDs", some (searchErrDetails s b)⟩
  | .ok videoIds =>
    if videoIds.isEmpty then ⟨200, [], some 0, none, none⟩
    else
      match recStage2 env.videosCall windowStart (chunks videoIds) [] with
      | .error (s, b) => ⟨s, [], none, some "Erro videos.list", some b⟩
      | .ok chSet =>
        let candidateChannels := chSet.take MAX_CHANNEL_CANDIDATES
        if candidateChannels.isEmpty then ⟨200, [], some 0, none, none⟩
        else
          match recChannels allowed windowStart env (chunks candidateChannels) [] with
          | .error (s, lbl, b) => ⟨s, [], none, some lbl, some b⟩
          | .ok qualified => ⟨200, qualified, some qualified.length, none, none⟩

/-- JS parseInt with radix 10: skip leading whitespace, optional sign,
then a leading digit run; no digits give NaN (none). -/
def parseIntJS (s : String) : Option Int :=
  let cs := s.data.dropWhile (fun c => c = ' ' ∨ c = '\t' ∨ c = '\n' ∨ c = '\r')
  let core : List Char → Option Nat := fun l =>
    let ds := l.takeWhile Char.isDigit
    if ds.isEmpty then none else some (digitsToNat ds)
  match cs with
  | '-' :: rest => (core rest).map (fun n => -(n : Int))
  | '+' :: rest => (core rest).map (fun n => (n : Int))
  | rest => (core rest).map (fun n => (n : Int))

/-- Numeric parameter resolution of api/search.js lines 137-139:
`Math.max(0, parseInt(raw || dflt, 10) || dflt)`. An absent or empty raw
value falls back to the default before parsing; NaN and a parsed 0 fall
back after parsing; negatives are clamped to 0. -/
def resolveNumParam (raw : Option String) (dflt : Nat) : Nat :=
  let parsed : Option Int :=
    match raw with
    | none => some (dflt : Int)
    | some s => if s = "" then some (dflt : Int) else parseIntJS s
  let v : Int :=
    match parsed with
    | none => (dflt : Int)
    | some n => if n = 0 then (dflt : Int) else n
  (max 0 v).toNat

/-- A statistics-only videos.list record as returned by the streak
statistics fetch (the request asks for part 'statistics' only). -/
def statRec (i : String) (vc : Nat) : VRec :=
  ⟨i, some vc, none, none, none, ⟨none, none, none, none, none⟩, none, none, none, none⟩

/-- The streak video ids a channel's uploads walk selects, when the walk
succeeds: the 14 most recent in-window uploads of the walked pages. -/
def streakIdsFor (windowStart : Nat) (env : REnv) (uploadsId : String) : Option (List String) :=
  match walkUploads windowStart (env.pages uploadsId) [] with
  | .error _ => none
  | .ok (collected, _) => some ((streakSel collected).map SItem.vId)

/-- An upload record whose title carries the shorts marker but whose view
count meets the streak floor. -/
def shortsUpload : VRec :=
  ⟨"v1", some 15000, some 5000, none, some "#shorts test", ⟨none, none, none, none, none⟩,
    some "c1", none, none, none⟩

/-- A concrete request configuration for the normal-mode witness. -/
def cfgW : Cfg := ⟨100000, 50000, 480, 1000, 1, DEFAULT_ALLOWED_LANGS⟩

/-- A concrete upstream environment with one qualifying video on one
channel. -/
def envW : VEnv :=
  ⟨[[⟨true, 200, "", [some "vid1"], false⟩]],
   fun _ => .ok [⟨"vid1", some 200000, some 5000, some "PT10M", some "How to market",
     ⟨none, none, none, none, none⟩, some "ch1", some "Chan", some "en-US", none⟩],
   fun _ => .ok [⟨"ch1", some "Chan", false, some 10000, some "US", none, none,
     ⟨none, none, none, none, none⟩⟩]⟩

/-- The single response item the pipeline produces for `envW`. -/
def outW : OutVideo :=
  ⟨⟨"vid1", "How to market", "ch1", "Chan", 5000, 200000, 600, mkRat 16 9, some "en",
    none, "https://www.youtube.com/watch?v=vid1"⟩, some 10000, some "en"⟩

/-- The fourteen playlist entries used by the streak witnesses, most
recent last in page order. -/
def pitems14 : List PItem :=
  (List.range 14).map (fun i => ⟨some ("u" ++ toString i), some (2000 + i), none⟩)

/-- A concrete streak-mode channel under all gates. -/
def chW4 : ChRec :=
  ⟨"c1", some "T", false, some 100000, some "US", none, some "UU1",
    ⟨none, none, none, none, none⟩⟩

/-- A concrete streak-mode environment whose statistics response covers
all 14 requested ids. -/
def envW4 : REnv :=
  ⟨[[⟨true, 200, "", [some "vidA"], false⟩]],
   fun _ => .ok [statRec "vidA" 20000],
   fun _ => .ok [chW4],
   fun _ => [⟨true, 200, "", pitems14, false⟩],
   fun ids => .ok (ids.map (fun i => statRec i 20000))⟩

/-- The qualified-channel record the witness environments produce. -/
def outChW : OutCh :=
  ⟨"c1", "T", some 100000, some "en", none, "T", "https://www.youtube.com/channel/c1"⟩

/-- An environment identical to `envW4` except that the statistics call
returns records for only two of the 14 requested ids. -/
def envW10 : REnv :=
  ⟨[[⟨true, 200, "", [some "vidA"], false⟩]],
   fun _ => .ok [statRec "vidA" 20000],
   fun _ => .ok [chW4],
   fun _ => [⟨true, 200, "", pitems14, false⟩],
   fun _ => .ok [statRec "u13" 20000, statRec "u12" 16000]⟩

/-- A concrete configuration for the error-propagation claims. -/
def cfgC5 : Cfg := ⟨100000, 50000, 480, 1000, 1, DEFAULT_ALLOWED_LANGS⟩

/-- An environment whose very first discovery call fails with upstream
status 403. -/
def envC5 : VEnv :=
  ⟨[[⟨false, 403, "quotaExceeded", [], false⟩]], fun _ => .ok [], fun _ => .ok []⟩

/-! Lemmas about the duration parser. -/

theorem hasCompB_cons {l : List Char} (a : Char) (h : hasCompB l = true) :
    hasCompB (a :: l) = true := by
  cases l with
  | nil => simp [hasCompB] at h
  | cons d rest =>
    simp only [hasCompB, Bool.or_eq_true] at h ⊢
    exact Or.inr h

theorem hasCompB_suffix {l' l : List Char} (hs : l' <:+ l) (h : hasCompB l' = true) :
    hasCompB l = true := by
  obtain ⟨t, rfl⟩ := hs
  induction t with
  | nil => simpa using h
  | cons a t ih => exact hasCompB_cons a ih

theorem matchComp_suffix {cs : List Char} {u : Char} {p : Nat × List Char}
    (h : matchComp cs u = some p) : p.2 <:+ cs := by
  unfold matchComp at h
  split at h
  · exact absurd h (by simp)
  · split at h
    · rename_i c rest2 hdrop
      split at h
      · cases h
        exact (List.suffix_cons c rest2).trans (hdrop ▸ List.dropWhile_suffix Char.isDigit)
      · exact absurd h (by simp)
    · exact absurd h (by simp)

theorem matchComp_hasComp {u : Char} (hu : u = 'H' ∨ u = 'M' ∨ u = 'S') :
    ∀ {cs : List Char} {p : Nat × List Char}, matchComp cs u = some p → hasCompB cs = true := by
  intro cs
  induction cs with
  | nil => intro p h; simp [matchComp] at h
  | cons c cs2 ih =>
    intro p h
    by_cases hc : c.isDigit = true
    · cases cs2 with
      | nil =>
        simp [matchComp, hc, List.takeWhile_cons, List.dropWhile_cons] at h
      | cons d cs3 =>
        by_cases hd : d.isDigit = true
        · cases hdrop : List.dropWhile Char.isDigit cs3 with
          | nil =>
            simp [matchComp, List.takeWhile_cons, List.dropWhile_cons, hc, hd, hdrop] at h
          | cons e r2 =>
            by_cases heu : e = u
            · have hq : matchComp (d :: cs3) u =
                  some (digitsToNat (List.takeWhile Char.isDigit (d :: cs3)), r2) := by
                simp [matchComp, List.takeWhile_cons, List.dropWhile_cons, hd, hdrop, heu]
              exact hasCompB_cons c (ih hq)
            · simp [matchComp, List.takeWhile_cons, List.dropWhile_cons, hc, hd, hdrop, heu] at h
        · by_cases heu : d = u
          · subst heu
            simp only [hasCompB, Bool.or_eq_true, Bool.and_eq_true]
            refine Or.inl ⟨hc, ?_⟩
            rcases hu with h1 | h1 | h1 <;> simp [h1]
          · simp [matchComp, List.takeWhile_cons, List.dropWhile_cons, hc, hd, heu] at h
    · simp [matchComp, List.takeWhile_cons, hc] at h

theorem findPT_suffix : ∀ {cs rest : List Char}, findPT cs = some rest → rest <:+ cs := by
  intro cs
  induction cs with
  | nil => intro rest h; simp [findPT] at h
  | cons c t ih =>
    intro rest h
    unfold findPT at h
    split at h
    · cases h
      exact (List.tail_suffix t).trans (List.suffix_cons c t)
    · exact (ih h).trans (List.suffix_cons c t)

/-- C8. The duration parser maps "PT1H2M5S" to 3725 seconds; absent input
parses to 0; and every string without a recognizable hour/minute/second
component (no nonempty digit run immediately followed by H, M or S)
parses to 0. -/
theorem c8_duration_parse :
    parseISODuration (some "PT1H2M5S") = 3725 ∧
    parseISODuration none = 0 ∧
    ∀ s : String, hasCompB s.data = false → parseISODuration (some s) = 0 := by
  refine ⟨by decide, rfl, ?_⟩
  intro s h
  cases hf : findPT s.data with
  | none => simp [parseISODuration, hf]
  | some rest =>
    have hrest : rest <:+ s.data := findPT_suffix hf
    have noComp : ∀ u, (u = 'H' ∨ u = 'M' ∨ u = 'S') → matchComp rest u = none := by
      intro u hu
      cases hm : matchComp rest u with
      | none => rfl
      | some p =>
        exact absurd (hasCompB_suffix hrest (matchComp_hasComp hu hm)) (by simp [h])
    simp [parseISODuration, hf, parseHMS, noComp 'H' (Or.inl rfl),
      noComp 'M' (Or.inr (Or.inl rfl)), noComp 'S' (Or.inr (Or.inr rfl))]

/-- Witness for C8: "hello" has no recognizable component and parses to 0. -/
theorem c8_duration_parse_witness :
    hasCompB ("hello".data) = false ∧ parseISODuration (some "hello") = 0 :=
  ⟨by decide, c8_duration_parse.2.2 "hello" (by decide)⟩

/-- With the sentinel ceiling the composite predicate degenerates to the
pure language check: the subscriber fields are never consulted. -/
theorem videoChannelPass_sentinel (allowed : List String) (ch : ChMeta) (v : Video) :
    videoChannelPass 0 allowed ch v = langPass allowed (langOf ch v) := by
  simp [videoChannelPass]

/-- C2. Subscriber ceiling of normal-mode filtering: with maxSubs = 0 (the
"no limit" sentinel) the joined predicate is exactly the language check, so
no video is excluded on subscriber grounds; with a positive maxSubs a null
(hidden) subscriber count always rejects, and a count above the ceiling
always rejects. -/
theorem c2_subscriber_ceiling :
    (∀ allowed ch v, videoChannelPass 0 allowed ch v = langPass allowed (langOf ch v)) ∧
    (∀ maxSubs allowed ch v, 0 < maxSubs → ch.subs = none →
      videoChannelPass maxSubs allowed ch v = false) ∧
    (∀ maxSubs allowed ch v s, 0 < maxSubs → ch.subs = some s → maxSubs < s →
      videoChannelPass maxSubs allowed ch v = false) := by
  refine ⟨videoChannelPass_sentinel, ?_, ?_⟩
  · intro maxSubs allowed ch v hpos hnone
    simp [videoChannelPass, hpos, hnone]
  · intro maxSubs allowed ch v s hpos hsome hover
    simp [videoChannelPass, hpos, hsome, hover]

/-- Witness for C2 at concrete inputs: a hidden-subscriber channel and an
over-ceiling channel are both rejected, and the sentinel ignores both. -/
theorem c2_subscriber_ceiling_witness :
    videoChannelPass 0 ["en"] ⟨none, true, none, some "en"⟩
        ⟨"v", "t", "c", "ct", 0, 0, 0, mkRat 16 9, none, none, "u"⟩ =
      langPass ["en"] (langOf ⟨none, true, none, some "en"⟩
        ⟨"v", "t", "c", "ct", 0, 0, 0, mkRat 16 9, none, none, "u"⟩) ∧
    videoChannelPass 5 ["en"] ⟨none, true, none, some "en"⟩
        ⟨"v", "t", "c", "ct", 0, 0, 0, mkRat 16 9, none, none, "u"⟩ = false ∧
    videoChannelPass 5 ["en"] ⟨some 6, false, none, some "en"⟩
        ⟨"v", "t", "c", "ct", 0, 0, 0, mkRat 16 9, none, none, "u"⟩ = false :=
  ⟨c2_subscriber_ceiling.1 ["en"] _ _,
   c2_subscriber_ceiling.2.1 5 ["en"] _ _ (by decide) rfl,
   c2_subscriber_ceiling.2.2 5 ["en"] _ _ 6 (by decide) rfl (by decide)⟩

/-- C9. Parameter resolution for maxSubs: the literal query value "0"
parses to 0, which is falsy and falls back to the 50000 default, so the
sentinel is unreachable through it; any negatively-parsed value is clamped
by Math.max to 0, which is the sentinel that disables the subscriber
ceiling entirely (third conjunct). -/
theorem c9_maxsubs_resolution :
    resolveNumParam (some "0") DEFAULT_MAX_SUBS = DEFAULT_MAX_SUBS ∧
    (∀ (s : String) (n : Int), parseIntJS s = some n → n < 0 →
      resolveNumParam (some s) DEFAULT_MAX_SUBS = 0) ∧
    (∀ allowed ch v, videoChannelPass 0 allowed ch v = langPass allowed (langOf ch v)) := by
  refine ⟨by decide, ?_, videoChannelPass_sentinel⟩
  intro s n hp hn
  by_cases hs : s = ""
  · subst hs
    rw [show parseIntJS "" = none from rfl] at hp
    cases hp
  · have hne : n ≠ 0 := by omega
    simp only [resolveNumParam, hs, if_false, hp, hne, if_neg hne]
    have : max 0 n = 0 := by omega
    simp [this]

/-- Witness for C9: "-7" parses negative and resolves to the sentinel 0. -/
theorem c9_maxsubs_resolution_witness :
    resolveNumParam (some "-7") DEFAULT_MAX_SUBS = 0 :=
  c9_maxsubs_resolution.2.1 "-7" (-7) (by decide) (by decide)

/-- Counterexample to C3. The streak scan's per-upload check accepts an
upload that the normal-mode per-video predicate rejects even under the
most charitable threshold substitution (streak view floor, duration floor
0, window start 0): the shorts-marker exclusion of the normal predicate is
never applied during the streak scan, so the two checks are not the same
predicate. -/
theorem c3_counterexample :
    streakAllAbove [shortsUpload] = true ∧
    stage2Video STREAK_MIN_VIEWS 0 0 shortsUpload = none := by
  constructor
  · decide
  · decide

/-- Every item gathered by the uploads walk lies inside the recency
window. -/
theorem walkUploads_window :
    ∀ (ws : Nat) (pages : List PPage) (acc c : List SItem) (n : Nat),
      (∀ x ∈ acc, ws ≤ x.publishedAt) →
      walkUploads ws pages acc = .ok (c, n) →
      ∀ x ∈ c, ws ≤ x.publishedAt := by
  intro ws pages
  induction pages with
  | nil =>
    intro acc c n hacc hw x hx
    cases hw
    exact hacc x hx
  | cons p rest ih =>
    intro acc c n hacc hw x hx
    unfold walkUploads at hw
    split at hw
    · cases hw
    · have hacc2 : ∀ y ∈ acc ++ pageWindowItems ws p.items, ws ≤ y.publishedAt := by
        intro y hy
        rcases List.mem_append.mp hy with hy1 | hy2
        · exact hacc y hy1
        · unfold pageWindowItems at hy2
          rw [List.mem_filterMap] at hy2
          obtain ⟨it, _, hit⟩ := hy2
          split at hit
          · split at hit
            · cases hit
              assumption
            · cases hit
          · cases hit
          · cases hit
      split at hw
      · cases hw
        exact hacc2 x hx
      · split at hw
        · split at hw
          · cases hw
          · rename_i heq
            cases hw
            exact ih _ _ _ hacc2 heq x hx
        · cases hw
          exact hacc2 x hx

/-- The allAbove loop decides exactly whether every returned statistics
record meets the streak view floor. -/
theorem streakAllAbove_eq_all (recs : List VRec) :
    streakAllAbove recs =
      recs.all (fun v => decide (STREAK_MIN_VIEWS ≤ v.statsViewCount.getD 0)) := by
  induction recs with
  | nil => rfl
  | cons v rest ih =>
    by_cases h : v.statsViewCount.getD 0 < STREAK_MIN_VIEWS
    · simp [streakAllAbove, h, Nat.not_le.mpr h]
    · simp [streakAllAbove, h, ih, Nat.not_lt.mp h]

/-- C3 amended to what the code does: the streak scan's per-upload
evaluation is only the streak view-count floor over the returned
statistics records (first conjunct), while recency is enforced earlier
when the windowed uploads are gathered (second conjunct). -/
theorem c3_streak_check_amended :
    (∀ recs : List VRec,
      streakAllAbove recs =
        recs.all (fun v => decide (STREAK_MIN_VIEWS ≤ v.statsViewCount.getD 0))) ∧
    (∀ (ws : Nat) (pages : List PPage) (acc c : List SItem) (n : Nat),
      (∀ x ∈ acc, ws ≤ x.publishedAt) →
      walkUploads ws pages acc = .ok (c, n) →
      ∀ x ∈ c, ws ≤ x.publishedAt) :=
  ⟨streakAllAbove_eq_all, walkUploads_window⟩

/-- Witness for C3's amended statement: a concrete one-page walk returns
only in-window uploads. -/
theorem c3_streak_check_amended_witness :
    ∀ x ∈ [(⟨"a", 12⟩ : SItem)], 10 ≤ x.publishedAt :=
  c3_streak_check_amended.2 10 [⟨true, 200, "", [⟨some "a", some 12, none⟩], false⟩]
    [] [⟨"a", 12⟩] 1 (by simp) (by decide)

/-- Counterexample to C6. The first fetched page's only entry (timestamp 5)
is older than the window start 1000 — its oldest entry falls outside the
recency window and it contributes no in-window uploads — yet the walk does
not stop there: because a continuation token is present it fetches the
second page as well (page count 2). -/
theorem c6_counterexample :
    walkUploads 1000
        [⟨true, 200, "", [⟨some "a", some 5, none⟩], true⟩,
         ⟨true, 200, "", [], false⟩] [] = .ok ([], 2) ∧
    pageWindowItems 1000 [⟨some "a", some 5, none⟩] = [] ∧
    (5 : Nat) < 1000 := by
  refine ⟨by decide, by decide, by decide⟩

/-- A walk over at least one page fetches at least one page. -/
theorem walkUploads_pos {ws : Nat} {p : PPage} {rest : List PPage} {acc c : List SItem}
    {n : Nat} (hw : walkUploads ws (p :: rest) acc = .ok (c, n)) : 1 ≤ n := by
  unfold walkUploads at hw
  split at hw
  · cases hw
  · split at hw
    · cases hw; omega
    · split at hw
      · split at hw
        · cases hw
        · cases hw; omega
      · cases hw; omega

/-- C6 as the code has it: the uploads walk stops at a page exactly when
that page brings the gathered in-window uploads to at least STREAK_COUNT
(first conjunct, and then it stops immediately even though a continuation
token may be present), and otherwise an early stop — fetching fewer pages
than the upstream chain has — happens only because the last fetched page
carried no continuation token (second conjunct). A page whose entries all
fall outside the window does not stop the walk (see the counterexample). -/
theorem c6_walk_stop_amended :
    (∀ (ws : Nat) (p : PPage) (rest : List PPage) (acc : List SItem),
      p.ok = true →
      STREAK_COUNT ≤ (acc ++ pageWindowItems ws p.items).length →
      walkUploads ws (p :: rest) acc = .ok (acc ++ pageWindowItems ws p.items, 1)) ∧
    (∀ (ws : Nat) (pages : List PPage) (acc c : List SItem) (n : Nat),
      walkUploads ws pages acc = .ok (c, n) →
      n ≤ pages.length ∧
      (n < pages.length →
        STREAK_COUNT ≤ c.length ∨
        ∃ p, pages[n - 1]? = some p ∧ p.nextPageToken = false)) := by
  constructor
  · intro ws p rest acc hok hlen
    unfold walkUploads
    rw [if_neg (by simp [hok]), if_pos hlen]
  · intro ws pages
    induction pages with
    | nil =>
      intro acc c n hw
      cases hw
      exact ⟨Nat.le_refl 0, fun h => absurd h (by simp)⟩
    | cons p rest ih =>
      intro acc c n hw
      unfold walkUploads at hw
      split at hw
      · cases hw
      · split at hw
        · cases hw
          refine ⟨by simp, fun _ => Or.inl (by assumption)⟩
        · split at hw
          · cases hcall : walkUploads ws rest (acc ++ pageWindowItems ws p.items) with
            | error e => rw [hcall] at hw; cases hw
            | ok r =>
              rw [hcall] at hw
              obtain ⟨cr, m⟩ := r
              cases hw
              obtain ⟨ih1, ih2⟩ := ih _ _ _ hcall
              refine ⟨by simp; omega, ?_⟩
              intro hlt
              have hmlt : m < rest.length := by simp at hlt; omega
              cases rest with
              | nil => cases hcall; simp at hmlt
              | cons q qs =>
                have hpos : 1 ≤ m := walkUploads_pos hcall
                rcases ih2 hmlt with h14 | ⟨pg, hget, htok⟩
                · exact Or.inl h14
                · refine Or.inr ⟨pg, ?_, htok⟩
                  have hidx : m + 1 - 1 = (m - 1) + 1 := by omega
                  rw [hidx, List.getElem?_cons_succ]
                  exact hget
          · cases hw
            rename_i htok
            exact ⟨by simp, fun _ => Or.inr ⟨p, by simp, by simpa using htok⟩⟩

/-- Witness for C6's amended statement: a page that completes the 14
in-window uploads stops the walk at once, continuation token
notwithstanding. -/
theorem c6_walk_stop_amended_witness :
    walkUploads 0 [⟨true, 200, "", [], true⟩] (List.replicate 14 (⟨"x", 0⟩ : SItem)) =
      .ok (List.replicate 14 (⟨"x", 0⟩ : SItem) ++ pageWindowItems 0 [], 1) :=
  c6_walk_stop_amended.1 0 ⟨true, 200, "", [], true⟩ [] (List.replicate 14 ⟨"x", 0⟩)
    rfl (by decide)

/-- The normal-mode output sort yields a non-increasing view-count
sequence. -/
theorem sortViewsDesc_pairwise (l : List OutVideo) :
    (sortViewsDesc l).Pairwise (fun a b => b.viewCount ≤ a.viewCount) := by
  haveI : IsTotal OutVideo (fun a b => b.viewCount ≤ a.viewCount) :=
    ⟨fun a b => Nat.le_total b.viewCount a.viewCount⟩
  haveI : IsTrans OutVideo (fun a b => b.viewCount ≤ a.viewCount) :=
    ⟨fun _ _ _ hab hbc => Nat.le_trans hbc hab⟩
  exact List.sorted_insertionSort _ l

/-- The subnicho output sort yields a non-increasing sequence of view
counts with nulls compared as 0. -/
theorem subSort_pairwise (l : List SubItem) :
    (List.insertionSort (fun a b => b.viewCount.getD 0 ≤ a.viewCount.getD 0) l).Pairwise
      (fun a b => b.viewCount.getD 0 ≤ a.viewCount.getD 0) := by
  haveI : IsTotal SubItem (fun a b => b.viewCount.getD 0 ≤ a.viewCount.getD 0) :=
    ⟨fun a b => Nat.le_total (b.viewCount.getD 0) (a.viewCount.getD 0)⟩
  haveI : IsTrans SubItem (fun a b => b.viewCount.getD 0 ≤ a.viewCount.getD 0) :=
    ⟨fun _ _ _ hab hbc => Nat.le_trans hbc hab⟩
  exact List.sorted_insertionSort _ l

/-- C7. Every response item list of mode 'videos' and of mode 'subnicho'
carries pairwise non-increasing view counts (subnicho null view counts
compare as 0, as in the source comparator). -/
theorem c7_sorted_desc :
    (∀ (cfg : Cfg) (env : VEnv),
      ((runVideos cfg env).items).Pairwise (fun a b => b.viewCount ≤ a.viewCount)) ∧
    (∀ (allowed : List String) (ws pages : Nat) (env : SEnv),
      ((runSubnicho allowed ws pages env).items).Pairwise
        (fun a b => b.viewCount.getD 0 ≤ a.viewCount.getD 0)) := by
  constructor
  · intro cfg env
    unfold runVideos
    cases collectVideoIdsWithDurations env.searchChains cfg.pages with
    | error e => obtain ⟨s, b⟩ := e; simp
    | ok ids =>
      by_cases hids : ids.isEmpty
      · simp [hids]
      · simp only [hids, if_false, Bool.false_eq_true]
        cases fetchVideosBatches env.videosCall cfg.minViews cfg.minDurationSec
            cfg.windowStart (chunks ids) [] with
        | error e => obtain ⟨s, b⟩ := e; simp
        | ok videos =>
          by_cases hv : videos.isEmpty
          · simp [hv]
          · simp only [hv, if_false, Bool.false_eq_true]
            cases fetchChannelMeta env.channelsCall
                (chunks ((dedupFirst (videos.map Video.channelId)).filter (fun s => s ≠ ""))) [] with
            | error e => obtain ⟨s, b⟩ := e; simp
            | ok metas => simpa using sortViewsDesc_pairwise _
  · intro allowed ws pages env
    unfold runSubnicho
    cases collectVideoIdsAny env.searchChains pages with
    | error e => obtain ⟨s, b⟩ := e; simp
    | ok ids =>
      by_cases hids : ids.isEmpty
      · simp [hids]
      · simp only [hids, if_false, Bool.false_eq_true]
        cases subStage2 env.videosCall ws (chunks ids) [] with
        | error e => obtain ⟨s, b⟩ := e; simp
        | ok cands =>
          by_cases hc : (cands.map Prod.fst).isEmpty
          · simp [hc]
          · simp only [hc, if_false, Bool.false_eq_true]
            cases subChannels env.channelsCall allowed cands (chunks (cands.map Prod.fst)) [] with
            | error e => obtain ⟨s, b⟩ := e; simp
            | ok items => simpa using subSort_pairwise items

/-- Any record accepted by the per-video predicate satisfies its five
conditions on the constructed fields. -/
theorem stage2Video_spec {mv md ws : Nat} {rec : VRec} {v : Video}
    (h : stage2Video mv md ws rec = some v) :
    mv ≤ v.viewCount ∧ ws ≤ v.publishedAt ∧ md ≤ v.durationSec ∧
    mkRat 6 5 ≤ v.aspect ∧
    containsSeq ("#shorts".data) (lowerStr v.title).data = false := by
  unfold stage2Video at h
  split at h
  · cases h
  · split at h
    · rename_i pub hpub hcond
      simp only [stage2Cond, Bool.and_eq_true, decide_eq_true_eq,
        Bool.not_eq_true'] at hcond
      obtain ⟨⟨⟨⟨hv1, hv2⟩, hv3⟩, hv4⟩, hv5⟩ := hcond
      cases h
      exact ⟨hv1, hv2, hv3, hv4, hv5⟩
    · cases h

/-- Membership in the video-enrichment accumulator comes from the initial
accumulator or from a record accepted by the per-video predicate. -/
theorem fetchVideosBatches_mem {call : List String → Except (Nat × String) (List VRec)}
    {mv md ws : Nat} :
    ∀ (cs : List (List String)) (acc vs : List Video),
      fetchVideosBatches call mv md ws cs acc = .ok vs →
      ∀ v ∈ vs, v ∈ acc ∨ ∃ rec, stage2Video mv md ws rec = some v := by
  intro cs
  induction cs with
  | nil =>
    intro acc vs h v hv
    cases h
    exact Or.inl hv
  | cons c cs2 ih =>
    intro acc vs h v hv
    unfold fetchVideosBatches at h
    cases hc : call c with
    | error e => rw [hc] at h; cases h
    | ok recs =>
      rw [hc] at h
      rcases ih _ _ h v hv with hin | hex
      · rcases List.mem_append.mp hin with h1 | h2
        · exact Or.inl h1
        · right
          rw [List.mem_filterMap] at h2
          obtain ⟨rec, _, hrec⟩ := h2
          exact ⟨rec, hrec⟩
      · exact Or.inr hex

/-- A passing composite filter guarantees a passing language check. -/
theorem videoChannelPass_lang {maxSubs : Nat} {allowed : List String} {ch : ChMeta} {v : Video}
    (h : videoChannelPass maxSubs allowed ch v = true) :
    langPass allowed (langOf ch v) = true := by
  unfold videoChannelPass at h
  split at h
  · split at h
    · cases h
    · split at h
      · cases h
      · exact h
  · exact h

/-- A passing language check names an allowed language. -/
theorem langPass_some {allowed : List String} {o : Option String}
    (h : langPass allowed o = true) : ∃ l, o = some l ∧ allowed.contains l = true := by
  cases o with
  | none => cases h
  | some l => exact ⟨l, rfl, h⟩

/-- The joined response item resolves its language exactly as the filter
does. -/
theorem mkOut_language {metas : List (String × ChMeta)} {v : Video} {ch : ChMeta}
    (hl : lookupMeta metas v.channelId = some ch) :
    (mkOut metas v).language = langOf ch v := by
  unfold mkOut langOf
  cases v.videoLang <;> simp [hl]

/-- C1. Every item of a mode-'videos' response satisfies all per-video
conditions: view floor, recency, duration floor, aspect-ratio floor (with
the 16/9 default baked into the stored ratio), shorts exclusion, and a
non-null resolved language inside the allowed set. -/
theorem c1_normal_mode_conditions :
    ∀ (cfg : Cfg) (env : VEnv) (out : OutVideo),
      out ∈ (runVideos cfg env).items →
      cfg.minViews ≤ out.viewCount ∧
      cfg.windowStart ≤ out.publishedAt ∧
      cfg.minDurationSec ≤ out.durationSec ∧
      mkRat 6 5 ≤ out.aspect ∧
      containsSeq ("#shorts".data) (lowerStr out.title).data = false ∧
      ∃ l, out.language = some l ∧ cfg.allowedLangs.contains l = true := by
  intro cfg env out hmem
  unfold runVideos at hmem
  cases hcol : collectVideoIdsWithDurations env.searchChains cfg.pages with
  | error e =>
    obtain ⟨s, b⟩ := e
    rw [hcol] at hmem
    simp at hmem
  | ok ids =>
    rw [hcol] at hmem
    by_cases hids : ids.isEmpty
    · simp [hids] at hmem
    · simp only [hids, if_false, Bool.false_eq_true] at hmem
      cases hfv : fetchVideosBatches env.videosCall cfg.minViews cfg.minDurationSec
          cfg.windowStart (chunks ids) [] with
      | error e =>
        obtain ⟨s, b⟩ := e
        rw [hfv] at hmem
        simp at hmem
      | ok videos =>
        rw [hfv] at hmem
        by_cases hv : videos.isEmpty
        · simp [hv] at hmem
        · simp only [hv, if_false, Bool.false_eq_true] at hmem
          cases hfc : fetchChannelMeta env.channelsCall
              (chunks ((dedupFirst (videos.map Video.channelId)).filter (fun s => s ≠ ""))) [] with
          | error e =>
            obtain ⟨s, b⟩ := e
            rw [hfc] at hmem
            simp at hmem
          | ok metas =>
            rw [hfc] at hmem
            simp only [sortViewsDesc] at hmem
            rw [List.mem_insertionSort] at hmem
            rw [List.mem_map] at hmem
            obtain ⟨v, hvfil, hvout⟩ := hmem
            rw [List.mem_filter] at hvfil
            obtain ⟨hvmem, hvpass⟩ := hvfil
            unfold passesFilter at hvpass
            cases hlook : lookupMeta metas v.channelId with
            | none => rw [hlook] at hvpass; cases hvpass
            | some ch =>
              rw [hlook] at hvpass
              have hlang := langPass_some (videoChannelPass_lang hvpass)
              obtain ⟨l, hlo, hlin⟩ := hlang
              rcases fetchVideosBatches_mem _ _ _ hfv v hvmem with hnil | ⟨rec, hrec⟩
              · cases hnil
              · obtain ⟨h1, h2, h3, h4, h5⟩ := stage2Video_spec hrec
                subst hvout
                refine ⟨h1, h2, h3, h4, h5, l, ?_, hlin⟩
                rw [mkOut_language hlook]
                exact hlo

/-- Witness for C1 at the concrete environment `envW`. -/
theorem c1_normal_mode_conditions_witness :
    cfgW.minViews ≤ outW.viewCount ∧
    cfgW.windowStart ≤ outW.publishedAt ∧
    cfgW.minDurationSec ≤ outW.durationSec ∧
    mkRat 6 5 ≤ outW.aspect ∧
    containsSeq ("#shorts".data) (lowerStr outW.title).data = false ∧
    ∃ l, outW.language = some l ∧ cfgW.allowedLangs.contains l = true :=
  c1_normal_mode_conditions cfgW envW outW (by decide)

/-- C4. A channel is pushed to the streak-mode qualified list only if its
subscriber count is non-null and at most the streak ceiling, its
country-derived language is allowed, its uploads walk selects exactly
STREAK_COUNT in-window ids, and — whenever the statistics response covers
exactly those ids — every one of them meets the streak view floor (first
conjunct). A single id among the selected 14 below the floor disqualifies
the channel (second conjunct). -/
theorem c4_streak_acceptance :
    (∀ (allowed : List String) (ws : Nat) (env : REnv) (ch : ChRec) (out : OutCh),
      processChannel allowed ws env ch = .ok (some out) →
      (∃ s, chSubs ch = some s ∧ s ≤ STREAK_MAX_SUBS) ∧
      (∃ l, chLang ch = some l ∧ allowed.contains l = true) ∧
      (∃ uploadsId ids, truthyS ch.uploads = some uploadsId ∧
        streakIdsFor ws env uploadsId = some ids ∧ ids.length = STREAK_COUNT ∧
        ∀ (vcOf : String → Nat),
          env.statsCall ids = .ok (ids.map (fun i => statRec i (vcOf i))) →
          ∀ i ∈ ids, STREAK_MIN_VIEWS ≤ vcOf i)) ∧
    (∀ (allowed : List String) (ws : Nat) (env : REnv) (ch : ChRec)
       (uploadsId : String) (ids : List String) (vcOf : String → Nat),
      truthyS ch.uploads = some uploadsId →
      streakIdsFor ws env uploadsId = some ids →
      env.statsCall ids = .ok (ids.map (fun i => statRec i (vcOf i))) →
      (∃ i ∈ ids, vcOf i < STREAK_MIN_VIEWS) →
      ∀ out, processChannel allowed ws env ch ≠ .ok (some out)) := by
  constructor
  · intro allowed ws env ch out h
    unfold processChannel at h
    split at h
    · simp at h
    · rename_i s hsubs
      split at h
      · simp at h
      · rename_i hcap
        split at h
        · simp at h
        · rename_i l hlang
          split at h
          · simp at h
          · rename_i hcont
            split at h
            · simp at h
            · rename_i uploadsId hupl
              split at h
              · simp at h
              · rename_i collected n hwalk
                split at h
                · simp at h
                · rename_i hlen
                  split at h
                  · simp at h
                  · rename_i recs hstats
                    split at h
                    · rename_i hall
                      refine ⟨⟨s, hsubs, by omega⟩, ⟨l, hlang, by simpa using hcont⟩,
                        uploadsId, (streakSel collected).map SItem.vId, hupl, ?_, ?_, ?_⟩
                      · unfold streakIdsFor
                        rw [hwalk]
                      · have hle : (streakSel collected).length ≤ STREAK_COUNT := by
                          simp [streakSel]
                        simp only [List.length_map]
                        omega
                      · intro vcOf hstats2 i hi
                        rw [hstats2] at hstats
                        have hrecs : recs = ((streakSel collected).map SItem.vId).map
                            (fun i => statRec i (vcOf i)) := by
                          cases hstats
                          rfl
                        rw [streakAllAbove_eq_all, hrecs, List.all_eq_true] at hall
                        have := hall (statRec i (vcOf i))
                          (List.mem_map.mpr ⟨i, hi, rfl⟩)
                        simpa using this
                    · simp at h
  · intro allowed ws env ch uploadsId ids vcOf hupl hids hstats hbad out h
    obtain ⟨i0, hi0, hv0⟩ := hbad
    unfold processChannel at h
    split at h
    · simp at h
    · split at h
      · simp at h
      · split at h
        · simp at h
        · split at h
          · simp at h
          · split at h
            · simp at h
            · rename_i u2 hu2
              have hueq : uploadsId = u2 := by
                have h12 := hupl.symm.trans hu2
                injection h12 with hv
              subst hueq
              split at h
              · simp at h
              · rename_i collected n hwalk
                have hidseq : ids = (streakSel collected).map SItem.vId := by
                  unfold streakIdsFor at hids
                  rw [hwalk] at hids
                  injection hids with h2
                  exact h2.symm
                split at h
                · simp at h
                · split at h
                  · simp at h
                  · rename_i recs hstats2
                    rw [← hidseq] at hstats2
                    rw [hstats2] at hstats
                    have hrecs : recs = ids.map (fun i => statRec i (vcOf i)) := by
                      injection hstats
                    split at h
                    · rename_i hall
                      rw [streakAllAbove_eq_all, hrecs, List.all_eq_true] at hall
                      have hmem := hall (statRec i0 (vcOf i0)) (List.mem_map.mpr ⟨i0, hi0, rfl⟩)
                      simp [statRec] at hmem
                      omega
                    · simp at h

/-- C10. The allAbove loop only inspects the records the statistics
response actually returns: whenever all gates pass and every returned
record meets the streak floor, the channel qualifies — also when the
response covers only a proper subset of the 14 requested ids. -/
theorem c10_streak_stats_subset :
    ∀ (allowed : List String) (ws : Nat) (env : REnv) (ch : ChRec) (s : Nat) (l : String)
      (uploadsId : String) (ids : List String) (resp : List VRec),
      chSubs ch = some s → s ≤ STREAK_MAX_SUBS →
      chLang ch = some l → allowed.contains l = true →
      truthyS ch.uploads = some uploadsId →
      streakIdsFor ws env uploadsId = some ids →
      ids.length = STREAK_COUNT →
      env.statsCall ids = .ok resp →
      (∀ r ∈ resp, STREAK_MIN_VIEWS ≤ r.statsViewCount.getD 0) →
      ∃ out, processChannel allowed ws env ch = .ok (some out) := by
  intro allowed ws env ch s l uploadsId ids resp hsubs hcap hlang hcont hupl hids hlen hstats hall
  have hnotcap : ¬ STREAK_MAX_SUBS < s := by omega
  unfold streakIdsFor at hids
  cases hwalk : walkUploads ws (env.pages uploadsId) [] with
  | error e => rw [hwalk] at hids; cases hids
  | ok r =>
    obtain ⟨collected, n⟩ := r
    rw [hwalk] at hids
    have hidseq : ids = (streakSel collected).map SItem.vId := by
      injection hids with h2
      exact h2.symm
    have hlen2 : ¬ (streakSel collected).length < STREAK_COUNT := by
      have hl : ids.length = (streakSel collected).length := by
        rw [hidseq, List.length_map]
      omega
    have hstats2 : env.statsCall ((streakSel collected).map SItem.vId) = .ok resp := by
      rw [← hidseq]
      exact hstats
    have hall2 : streakAllAbove resp = true := by
      rw [streakAllAbove_eq_all, List.all_eq_true]
      intro r hr
      simpa using hall r hr
    refine ⟨⟨ch.id, ch.title.getD "", some s, some l,
      (pickThumb ch.thumbnails).bind Thumb.url, ch.title.getD "",
      "https://www.youtube.com/channel/" ++ ch.id⟩, ?_⟩
    unfold processChannel
    rw [hsubs, hlang, hupl]
    simp [hnotcap, hcont, hwalk, hlen2, hstats2, hall2]
    simpa using hcont

/-- Witness for C4: the acceptance conjunct applied at `envW4`, and the
rejection conjunct applied to an environment whose tenth streak id falls
below the floor. -/
theorem c4_streak_acceptance_witness :
    ((∃ s, chSubs chW4 = some s ∧ s ≤ STREAK_MAX_SUBS) ∧
     (∃ l, chLang chW4 = some l ∧ DEFAULT_ALLOWED_LANGS.contains l = true) ∧
     (∃ uploadsId ids, truthyS chW4.uploads = some uploadsId ∧
       streakIdsFor 1000 envW4 uploadsId = some ids ∧ ids.length = STREAK_COUNT ∧
       ∀ (vcOf : String → Nat),
         envW4.statsCall ids = .ok (ids.map (fun i => statRec i (vcOf i))) →
         ∀ i ∈ ids, STREAK_MIN_VIEWS ≤ vcOf i)) ∧
    (∀ out, processChannel DEFAULT_ALLOWED_LANGS 1000
      (REnv.mk [[⟨true, 200, "", [some "vidA"], false⟩]]
        (fun _ => .ok [statRec "vidA" 20000])
        (fun _ => .ok [chW4])
        (fun _ => [⟨true, 200, "", pitems14, false⟩])
        (fun ids => .ok (ids.map (fun i => statRec i (if i = "u4" then 14999 else 20000)))))
      chW4 ≠ .ok (some out)) :=
  ⟨c4_streak_acceptance.1 DEFAULT_ALLOWED_LANGS 1000 envW4 chW4 outChW (by decide),
   c4_streak_acceptance.2 DEFAULT_ALLOWED_LANGS 1000 _ chW4 "UU1"
     ["u13", "u12", "u11", "u10", "u9", "u8", "u7", "u6", "u5", "u4", "u3", "u2", "u1", "u0"]
     (fun i => if i = "u4" then 14999 else 20000)
     (by decide) (by decide) (by decide) ⟨"u4", by decide, by decide⟩⟩

/-- Witness for C10: with a two-record response (a proper subset of the
14 ids) whose records both meet the floor, the channel still qualifies. -/
theorem c10_streak_stats_subset_witness :
    ∃ out, processChannel DEFAULT_ALLOWED_LANGS 1000 envW10 chW4 = .ok (some out) :=
  c10_streak_stats_subset DEFAULT_ALLOWED_LANGS 1000 envW10 chW4 100000 "en" "UU1"
    ["u13", "u12", "u11", "u10", "u9", "u8", "u7", "u6", "u5", "u4", "u3", "u2", "u1", "u0"]
    [statRec "u13" 20000, statRec "u12" 16000]
    (by decide) (by decide) (by decide) (by decide) (by decide) (by decide) (by decide)
    (by decide) (by decide)

/-- Counterexample to C5. A discovery-stage upstream failure with status
403 terminates the request with response status 500 — not with the
upstream's status code, which only survives inside the details string. -/
theorem c5_counterexample :
    runVideos cfgC5 envC5 =
      ⟨500, [], none, some "Falha coletando IDs",
        some "Error: search.list 403 quotaExceeded"⟩ ∧
    (runVideos cfgC5 envC5).status ≠ 403 := by
  constructor
  · decide
  · decide

/-- C5 amended to what the code does: every stage failure aborts the whole
request with an empty item list; the enrichment and uploads-walk stages
surface the upstream status as the response status and the body as
details, while a discovery failure responds 500 with the upstream status
and body embedded in the details string. Conjuncts: (a) videos-mode
discovery failure, (b) the discovery loop throws the upstream status and
body at the first non-success page, (c) videos.list failure, (d)
channels.list failure, (e) a non-success playlist page aborts the walk,
(f) a walk abort propagates through the channel evaluation, (g) a streak
statistics abort propagates likewise, (h) a streak-stage abort terminates
the rec_channels request, (i) a rec_channels discovery failure responds
500. -/
theorem c5_error_propagation_amended :
    (∀ (cfg : Cfg) (env : VEnv) (s : Nat) (b : String),
      collectVideoIdsWithDurations env.searchChains cfg.pages = .error (s, b) →
      runVideos cfg env =
        ⟨500, [], none, some "Falha coletando IDs", some (searchErrDetails s b)⟩) ∧
    (∀ (budget : Nat) (p : SPage) (chain : List SPage) (chains : List (List SPage))
       (acc : List String), p.ok = false →
      collectChains (budget + 1) ((p :: chain) :: chains) acc = .error (p.status, p.body)) ∧
    (∀ (cfg : Cfg) (env : VEnv) (ids : List String) (s : Nat) (b : String),
      collectVideoIdsWithDurations env.searchChains cfg.pages = .ok ids →
      ids.isEmpty = false →
      fetchVideosBatches env.videosCall cfg.minViews cfg.minDurationSec cfg.windowStart
        (chunks ids) [] = .error (s, b) →
      runVideos cfg env = ⟨s, [], none, some "Erro videos.list", some b⟩) ∧
    (∀ (cfg : Cfg) (env : VEnv) (ids : List String) (videos : List Video) (s : Nat) (b : String),
      collectVideoIdsWithDurations env.searchChains cfg.pages = .ok ids →
      ids.isEmpty = false →
      fetchVideosBatches env.videosCall cfg.minViews cfg.minDurationSec cfg.windowStart
        (chunks ids) [] = .ok videos →
      videos.isEmpty = false →
      fetchChannelMeta env.channelsCall
        (chunks ((dedupFirst (videos.map Video.channelId)).filter (fun s => s ≠ ""))) [] =
        .error (s, b) →
      runVideos cfg env = ⟨s, [], none, some "Erro channels.list", some b⟩) ∧
    (∀ (ws : Nat) (p : PPage) (rest : List PPage) (acc : List SItem),
      p.ok = false → walkUploads ws (p :: rest) acc = .error (p.status, p.body)) ∧
    (∀ (allowed : List String) (ws : Nat) (env : REnv) (ch : ChRec) (s0 : Nat) (l : String)
       (uploadsId : String) (st : Nat) (b : String),
      chSubs ch = some s0 → s0 ≤ STREAK_MAX_SUBS →
      chLang ch = some l → allowed.contains l = true →
      truthyS ch.uploads = some uploadsId →
      walkUploads ws (env.pages uploadsId) [] = .error (st, b) →
      processChannel allowed ws env ch = .error (st, "Erro playlistItems.list", b)) ∧
    (∀ (allowed : List String) (ws : Nat) (env : REnv) (ch : ChRec) (s0 : Nat) (l : String)
       (uploadsId : String) (ids : List String) (st : Nat) (b : String),
      chSubs ch = some s0 → s0 ≤ STREAK_MAX_SUBS →
      chLang ch = some l → allowed.contains l = true →
      truthyS ch.uploads = some uploadsId →
      streakIdsFor ws env uploadsId = some ids → ids.length = STREAK_COUNT →
      env.statsCall ids = .error (st, b) →
      processChannel allowed ws env ch = .error (st, "Erro videos.list (streak)", b)) ∧
    (∀ (allowed : List String) (ws : Nat) (env : REnv) (ids chSet : List String)
       (st : Nat) (lbl b : String),
      collectVideoIdsAny env.searchChains 1 = .ok ids → ids.isEmpty = false →
      recStage2 env.videosCall ws (chunks ids) [] = .ok chSet →
      (chSet.take MAX_CHANNEL_CANDIDATES).isEmpty = false →
      recChannels allowed ws env (chunks (chSet.take MAX_CHANNEL_CANDIDATES)) [] =
        .error (st, lbl, b) →
      runRec allowed ws env = ⟨st, [], none, some lbl, some b⟩) ∧
    (∀ (allowed : List String) (ws : Nat) (env : REnv) (s : Nat) (b : String),
      collectVideoIdsAny env.searchChains 1 = .error (s, b) →
      runRec allowed ws env =
        ⟨500, [], none, some "Falha coletando IDs", some (searchErrDetails s b)⟩) := by
  refine ⟨?_, ?_, ?_, ?_, ?_, ?_, ?_, ?_, ?_⟩
  · intro cfg env s b h
    unfold runVideos
    rw [h]
  · intro budget p chain chains acc hok
    unfold collectChains collectChain
    simp [hok]
  · intro cfg env ids s b hcol hemp hfv
    unfold runVideos
    rw [hcol]
    simp [hemp, hfv]
  · intro cfg env ids videos s b hcol hemp hfv hvemp hfc
    unfold runVideos
    rw [hcol]
    simp only [ne_eq, decide_not] at hfc
    simp [hemp, hfv, hvemp, hfc]
  · intro ws p rest acc hok
    unfold walkUploads
    simp [hok]
  · intro allowed ws env ch s0 l uploadsId st b hsubs hcap hlang hcont hupl hwalk
    have hnotcap : ¬ STREAK_MAX_SUBS < s0 := by omega
    unfold processChannel
    rw [hsubs, hlang, hupl]
    simp [hnotcap, hcont, hwalk]
    simpa using hcont
  · intro allowed ws env ch s0 l uploadsId ids st b hsubs hcap hlang hcont hupl hids hlen hstats
    have hnotcap : ¬ STREAK_MAX_SUBS < s0 := by omega
    unfold streakIdsFor at hids
    cases hwalk : walkUploads ws (env.pages uploadsId) [] with
    | error e => rw [hwalk] at hids; cases hids
    | ok r =>
      obtain ⟨collected, n⟩ := r
      rw [hwalk] at hids
      have hidseq : ids = (streakSel collected).map SItem.vId := by
        injection hids with h2
        exact h2.symm
      have hlen2 : ¬ (streakSel collected).length < STREAK_COUNT := by
        have hl : ids.length = (streakSel collected).length := by
          rw [hidseq, List.length_map]
        omega
      have hstats2 : env.statsCall ((streakSel collected).map SItem.vId) = .error (st, b) := by
        rw [← hidseq]
        exact hstats
      unfold processChannel
      rw [hsubs, hlang, hupl]
      simp [hnotcap, hcont, hwalk, hlen2, hstats2]
      simpa using hcont
  · intro allowed ws env ids chSet st lbl b hcol hemp hstage hcands hrec
    unfold runRec
    rw [hcol]
    simp [hemp, hstage, hcands, hrec]
  · intro allowed ws env s b h
    unfold runRec
    rw [h]

/-- Witness for C5's amended statement: the concrete 403 discovery failure
yields the 500 response, and a concrete 502 playlist page aborts the walk
with status 502 and its body. -/
theorem c5_error_propagation_amended_witness :
    runVideos cfgC5 envC5 =
      ⟨500, [], none, some "Falha coletando IDs", some (searchErrDetails 403 "quotaExceeded")⟩ ∧
    walkUploads 0 [⟨false, 502, "bad gateway", [], false⟩] [] = .error (502, "bad gateway") :=
  ⟨c5_error_propagation_amended.1 cfgC5 envC5 403 "quotaExceeded" (by decide),
   c5_error_propagation_amended.2.2.2.2.1 0 ⟨false, 502, "bad gateway", [], false⟩ [] [] rfl⟩

end MetodoFast
